import Mathlib

/-!
Verification of the Objective-C interoperability resolver interface
(`src/dmd/objc.h`).  The repository ships only the interface header: the
structs `ObjcSelector` and `ObjcClassDeclaration` and the abstract capability
class `Objc` with its two strategies.  The operations themselves are modelled
from the specification, faithful to its words, over a shallow embedding in
which declarations are identified by natural-number ids and the compiler
state is explicit.
-/

/-- The diagnostic taxonomy of the spec (§7). -/
inductive ObjcError where
  | invalidSelectorSyntax
  | duplicateAnnotation
  | unsupportedBase
  | selectorArityMismatch
  | selectorOnNonInteropType
  | linkageConflict
  | missingExternMetaclass
  | metaclassNotResolved
  | selectorCollision
  | invalidDeclaration
deriving DecidableEq, Repr

/-- `struct ObjcSelector` from `objc.h`: method-name text and parameter
count.  `stringlen` of the C struct is `stringvalue.length` here (the C
field caches the length of the name bytes).  Two selectors are equal iff
name and parameter count match (spec §3). -/
structure ObjcSelector where
  stringvalue : String
  paramCount : Nat
deriving DecidableEq, Repr

/-- Modelled from the spec: the Selector Table (§4.1), whose implementation
is not in the header.  The table is the list of interned selectors; a
handle is an index into it, so identical handles are the model of pointer
equality.  `intern` returns the handle of the first matching entry, or
appends the selector when absent. -/
def intern : List ObjcSelector → ObjcSelector → List ObjcSelector × Nat
  | [], s => ([s], 0)
  | t :: ts, s =>
    if t = s then (t :: ts, 0)
    else
      let r := intern ts s
      (t :: r.1, r.2 + 1)

/-- The table after interning: unchanged when the selector was present,
extended by one entry otherwise. -/
theorem intern_fst (tbl : List ObjcSelector) (s : ObjcSelector) :
    (intern tbl s).1 = if s ∈ tbl then tbl else tbl ++ [s] := by
  induction tbl with
  | nil => simp [intern]
  | cons t ts ih =>
    by_cases h : t = s
    · simp [intern, h]
    · simp only [intern, if_neg h, List.mem_cons]
      rw [ih]
      by_cases hm : s ∈ ts
      · simp [hm, Ne.symm h]
      · simp [hm, Ne.symm h]

/-- The returned handle points at the interned selector. -/
theorem intern_get (tbl : List ObjcSelector) (s : ObjcSelector) :
    (intern tbl s).1[(intern tbl s).2]? = some s := by
  induction tbl with
  | nil => simp [intern]
  | cons t ts ih =>
    by_cases h : t = s
    · simp [intern, h]
    · simpa [intern, h] using ih

/-- The returned handle is the first occurrence: no earlier slot holds the
selector. -/
theorem intern_first (tbl : List ObjcSelector) (s : ObjcSelector) :
    ∀ j < (intern tbl s).2, (intern tbl s).1[j]? ≠ some s := by
  induction tbl with
  | nil => simp [intern]
  | cons t ts ih =>
    intro j hj
    by_cases h : t = s
    · simp [intern, h] at hj
    · simp only [intern, if_neg h] at hj ⊢
      match j with
      | 0 =>
        simp only [List.getElem?_cons_zero]
        intro hc
        exact h (Option.some.injEq .. ▸ hc)
      | j' + 1 =>
        simp only [List.getElem?_cons_succ]
        exact ih j' (Nat.lt_of_succ_lt_succ hj)

/-- Interning never moves existing entries: any slot already filled keeps
its selector. -/
theorem intern_preserves (tbl : List ObjcSelector) (s x : ObjcSelector)
    (j : Nat) (hx : tbl[j]? = some x) : (intern tbl s).1[j]? = some x := by
  rw [intern_fst]
  by_cases hm : s ∈ tbl
  · simpa [hm] using hx
  · have hj : j < tbl.length := (List.getElem?_eq_some_iff.mp hx).1
    simp only [if_neg hm]
    rw [List.getElem?_append, if_pos hj]
    exact hx

/-- If a slot holds the selector and no earlier slot does, interning
returns exactly that slot and leaves the table unchanged. -/
theorem intern_of_found (tbl : List ObjcSelector) (s : ObjcSelector) (i : Nat)
    (hi : tbl[i]? = some s) (hfirst : ∀ j < i, tbl[j]? ≠ some s) :
    intern tbl s = (tbl, i) := by
  induction tbl generalizing i with
  | nil => simp at hi
  | cons t ts ih =>
    match i with
    | 0 =>
      simp only [List.getElem?_cons_zero, Option.some.injEq] at hi
      simp [intern, hi]
    | i' + 1 =>
      have ht : t ≠ s := by
        intro h
        exact hfirst 0 (Nat.succ_pos i') (by simp [h])
      have hrec := ih i' (by simpa using hi)
        (fun j hj => by simpa using hfirst (j + 1) (Nat.succ_lt_succ hj))
      simp [intern, ht, hrec]

/-- C2: selector interning is uniquing.  Starting from any table, intern a
selector and then a second one: the two returned handles are identical
exactly when the (name, paramCount) pairs are equal — equal pairs yield the
identical handle, distinct pairs yield distinct handles. -/
theorem objc_selector_intern_unique (tbl : List ObjcSelector)
    (s1 s2 : ObjcSelector) :
    (intern (intern tbl s1).1 s2).2 = (intern tbl s1).2 ↔ s2 = s1 := by
  constructor
  · intro h
    have g2 := intern_get (intern tbl s1).1 s2
    have g1 : (intern (intern tbl s1).1 s2).1[(intern tbl s1).2]? = some s1 :=
      intern_preserves _ s2 s1 _ (intern_get tbl s1)
    rw [h] at g2
    rw [g2] at g1
    exact Option.some_injective _ g1
  · intro h
    subst h
    have := intern_of_found (intern tbl s2).1 s2 (intern tbl s2).2
      (intern_get tbl s2) (intern_first tbl s2)
    rw [this]

/-- A parameter declaration of a function.  `isSelector` marks the hidden
selector parameter synthesized by `createSelectorParameter` (spec §4.2);
user-written (non-implicit) parameters have it false. -/
structure VarDeclaration where
  name : String
  isSelector : Bool
deriving DecidableEq, Repr

/-- `FuncDeclaration` as this subsystem sees it, carrying the
FunctionInteropInfo of spec §3: the assigned selector (nullable until
assigned), the parameter list, staticness and finality (for ABI-level
dispatch eligibility), the foreign linkage mark, the enclosing aggregate
(null for a free-standing function) and whether that aggregate was marked
interop.  Functions are identified by `fid`. -/
structure FuncDeclaration where
  fid : Nat
  selector : Option ObjcSelector
  params : List VarDeclaration
  isStatic : Bool
  isFinal : Bool
  objcLinkage : Bool
  enclosingClass : Option Nat
  enclosingInterop : Bool
deriving DecidableEq, Repr

/-- MethodListEntry of spec §3: (selector, function reference,
is-class-method flag). -/
structure MethodListEntry where
  selector : ObjcSelector
  func : Nat
  isClassMethod : Bool
deriving DecidableEq, Repr

/-- `struct ObjcClassDeclaration` from `objc.h`.  `classDeclaration` is the
paired class reference (for a metaclass, the class it mirrors) and
`metaclass` the paired metaclass reference, both class ids;
`suppliedMetaclass` models a metaclass supplied by an external header for
an `extern` class; `superclass` is the interop inheritance link of the
declaration (held by `ClassDeclaration` in the source, carried here because
`getParent` and `isRootClass` walk it); `instanceSyms`/`classSyms` are the
symbol sequences accumulated by `addSymbols`. -/
structure ObjcClassDeclaration where
  isMeta : Bool
  isExtern : Bool
  identifier : String
  classDeclaration : Option Nat
  metaclass : Option Nat
  methodList : List MethodListEntry
  superclass : Option Nat
  suppliedMetaclass : Option Nat
  instanceSyms : List Nat
  classSyms : List Nat
deriving DecidableEq, Repr

/-- `isRootClass` from `objc.h` / spec §4.3: true iff the class has no
interop superclass. -/
def ObjcClassDeclaration.isRootClass (c : ObjcClassDeclaration) : Bool :=
  c.superclass.isNone

/-- The interop state of one compilation session: the selector table and
the class declarations, indexed by class id. -/
structure ObjcState where
  selectorTable : List ObjcSelector
  classes : List ObjcClassDeclaration
deriving DecidableEq, Repr

/-- Replace the info of class `cid` (other classes untouched). -/
def setClass (st : ObjcState) (cid : Nat) (c : ObjcClassDeclaration) :
    ObjcState :=
  { st with classes := st.classes.set cid c }

/-- The method list of class `cid` (empty for an unknown id). -/
def methodListOf (st : ObjcState) (cid : Nat) : List MethodListEntry :=
  ((st.classes[cid]?).map ObjcClassDeclaration.methodList).getD []

/-- The metaclass reference of class `cid`, when resolved. -/
def metaclassOf (st : ObjcState) (cid : Nat) : Option Nat :=
  (st.classes[cid]?).bind ObjcClassDeclaration.metaclass

/-- The paired-class reference of class `cid`. -/
def pairedClassOf (st : ObjcState) (cid : Nat) : Option Nat :=
  (st.classes[cid]?).bind ObjcClassDeclaration.classDeclaration

/-- The accumulated instance-method symbols of class `cid`. -/
def instanceSymsOf (st : ObjcState) (cid : Nat) : List Nat :=
  ((st.classes[cid]?).map ObjcClassDeclaration.instanceSyms).getD []

/-- The accumulated class-method symbols of class `cid`. -/
def classSymsOf (st : ObjcState) (cid : Nat) : List Nat :=
  ((st.classes[cid]?).map ObjcClassDeclaration.classSyms).getD []

/-- The number of non-implicit (user-written) parameters of a function:
parameters that are not the synthesized selector parameter. -/
def nonImplicitParamCount (fd : FuncDeclaration) : Nat :=
  fd.params.countP (fun p => !p.isSelector)

/-- Modelled from the spec: `Objc::validateSelector` (§4.2), whose
implementation is not in the header.  Fails with `SelectorArityMismatch`
when the parameter count encoded in the assigned selector disagrees with
the function's non-implicit parameter count, and with
`SelectorOnNonInteropType` when the enclosing aggregate was never marked
interop; a function with no assigned selector has nothing to validate. -/
def validateSelector (fd : FuncDeclaration) : Except ObjcError Unit :=
  match fd.selector with
  | none => .ok ()
  | some s =>
    if s.paramCount ≠ nonImplicitParamCount fd then
      .error .selectorArityMismatch
    else if !fd.enclosingInterop then
      .error .selectorOnNonInteropType
    else .ok ()

/-- Modelled from the spec: the functional strategy's `Objc::isVirtual`
(§4.2), whose implementation is not in the header.  True iff the function
participates in runtime dynamic dispatch: marked with the foreign linkage
and neither final nor a static member. -/
def isVirtualF (fd : FuncDeclaration) : Bool :=
  fd.objcLinkage && !fd.isFinal && !fd.isStatic

/-- Modelled from the spec: the functional strategy's `Objc::isThis`
(§4.2), whose implementation is not in the header.  The enclosing receiver
aggregate of a method, or null for a free-standing function. -/
def isThisF (fd : FuncDeclaration) : Option Nat :=
  fd.enclosingClass

/-- Does class info `c` declare a method with the same selector as `fd`? -/
def declaresSelectorOf (c : ObjcClassDeclaration) (fd : FuncDeclaration) :
    Bool :=
  c.methodList.any (fun e => fd.selector == some e.selector)

/-- Modelled from the spec: the walk of `Objc::getParent` (§4.5), whose
implementation is not in the header.  Follows the interop inheritance
chain from `cid` upward, fuelled to rule out ill-formed cyclic chains,
returning the first class that declares a method with the same selector
as `fd`. -/
def findParent (st : ObjcState) (fd : FuncDeclaration) :
    Nat → Nat → Option Nat
  | 0, _ => none
  | fuel + 1, cid =>
    match st.classes[cid]? with
    | none => none
    | some c =>
      if declaresSelectorOf c fd then some cid
      else
        match c.superclass with
        | none => none
        | some sup => findParent st fd fuel sup

/-- Modelled from the spec: the functional strategy's `Objc::getParent`
(§4.5): the nearest ancestor of `cid` (inclusive) already declaring a
method with the same selector as `fd`, or `cid` itself when none is
found. -/
def getParentF (st : ObjcState) (fd : FuncDeclaration) (cid : Nat) : Nat :=
  (findParent st fd st.classes.length cid).getD cid

/-- The interop inheritance chain starting at `cid` (inclusive), fuelled. -/
def ancestorChain (st : ObjcState) : Nat → Nat → List Nat
  | 0, _ => []
  | fuel + 1, cid =>
    match st.classes[cid]? with
    | none => []
    | some c =>
      cid :: (match c.superclass with
              | none => []
              | some sup => ancestorChain st fuel sup)

/-- Does class id `i` declare a method with the same selector as `fd`? -/
def declaresAt (st : ObjcState) (fd : FuncDeclaration) (i : Nat) : Bool :=
  ((st.classes[i]?).map (declaresSelectorOf · fd)).getD false

/-- Modelled from the spec: `Objc::setMetaclass` (§4.3), whose
implementation is not in the header.  Ensures a metaclass exists for class
`cid`: a class whose metaclass is already resolved is left as is; an
`extern` class links directly to the externally supplied metaclass
(failing with `MissingExternMetaclass` if none was supplied) and the
mutual back-reference is set on both sides; otherwise a fresh metaclass
declaration is synthesized, mirroring the class's name, with the mutual
back-reference established. -/
def setMetaclass (st : ObjcState) (cid : Nat) : Except ObjcError ObjcState :=
  match st.classes[cid]? with
  | none => .error .invalidDeclaration
  | some c =>
    match c.metaclass with
    | some _ => .ok st
    | none =>
      if c.isExtern then
        match c.suppliedMetaclass with
        | none => .error .missingExternMetaclass
        | some m =>
          match (setClass st cid { c with metaclass := some m
                  }).classes[m]? with
          | none => .error .invalidDeclaration
          | some mc =>
            .ok (setClass (setClass st cid { c with metaclass := some m }) m
                  { mc with classDeclaration := some cid })
      else
        .ok { st with
              classes :=
                st.classes.set cid
                  { c with metaclass := some st.classes.length } ++
                [{ isMeta := true, isExtern := false,
                   identifier := c.identifier,
                   classDeclaration := some cid, metaclass := none,
                   methodList := [], superclass := c.superclass,
                   suppliedMetaclass := none, instanceSyms := [],
                   classSyms := [] }] }

/-- Modelled from the spec: `Objc::getRuntimeMetaclass` (§4.3), whose
implementation is not in the header.  Read accessor for the resolved
metaclass; fails with `MetaclassNotResolved` before `setMetaclass`
completed for the class. -/
def getRuntimeMetaclass (st : ObjcState) (cid : Nat) :
    Except ObjcError (Option Nat) :=
  match st.classes[cid]? with
  | none => .error .invalidDeclaration
  | some c =>
    match c.metaclass with
    | none => .error .metaclassNotResolved
    | some m => .ok (some m)

/-- Does the class's own method list already hold an entry with the same
selector and the same is-class-method flag as `fd`? -/
def ownCollision (c : ObjcClassDeclaration) (fd : FuncDeclaration) : Bool :=
  c.methodList.any (fun e =>
    fd.selector == some e.selector && fd.isStatic == e.isClassMethod)

/-- Modelled from the spec: `Objc::addToClassMethodList` (§4.4), whose
implementation is not in the header.  Appends a MethodListEntry in
declaration order; fails with `SelectorCollision` when the same selector
with matching is-class-method flag is already in the class's own list
(only the own list is inspected, so a selector inherited from a
superclass is an override, not an error).  A function with no assigned
selector contributes no entry. -/
def addToClassMethodList (st : ObjcState) (fd : FuncDeclaration)
    (cid : Nat) : Except ObjcError ObjcState :=
  match st.classes[cid]? with
  | none => .error .invalidDeclaration
  | some c =>
    match fd.selector with
    | none => .ok st
    | some s =>
      if ownCollision c fd then .error .selectorCollision
      else
        .ok (setClass st cid
              { c with methodList :=
                  c.methodList ++ [⟨s, fd.fid, fd.isStatic⟩] })

/-- Visit a sequence of method declarations in order, adding each to the
class's method list. -/
def addMethods (st : ObjcState) (cid : Nat) :
    List FuncDeclaration → Except ObjcError ObjcState
  | [] => .ok st
  | f :: fs =>
    match addToClassMethodList st f cid with
    | .ok st1 => addMethods st1 cid fs
    | .error e => .error e

/-- The method-list entry contributed by a function whose selector is
assigned. -/
def entryOf (fd : FuncDeclaration) : MethodListEntry :=
  ⟨(fd.selector).getD ⟨"", 0⟩, fd.fid, fd.isStatic⟩

/-- Modelled from the spec: `Objc::createSelectorParameter` (§4.2), whose
implementation is not in the header.  Synthesizes the hidden selector
parameter for a function; when the function's parameter list already
holds a selector parameter, that parameter is returned and the list is
left untouched. -/
def createSelectorParameter (fd : FuncDeclaration) :
    FuncDeclaration × VarDeclaration :=
  match fd.params.find? (fun p => p.isSelector) with
  | some p => (fd, p)
  | none =>
    let p : VarDeclaration := ⟨"_cmd", true⟩
    ({ fd with params := p :: fd.params }, p)

/-- Modelled from the spec: `Objc::addSymbols` (§4.4), whose implementation
is not in the header.  Bulk contribution of a group's instance-method and
class-method symbol sequences to class `cid`: both sequences are appended
in order to what earlier calls accumulated. -/
def addSymbols (st : ObjcState) (cid : Nat) (im cm : List Nat) :
    Except ObjcError ObjcState :=
  match st.classes[cid]? with
  | none => .error .invalidDeclaration
  | some c =>
    .ok (setClass st cid
          { c with instanceSyms := c.instanceSyms ++ im,
                   classSyms := c.classSyms ++ cm })

/-- The `class Objc` capability interface of `objc.h`, shallowly embedded:
every operation threads the session state explicitly, a reported
diagnostic is `some` error, and null results are `none`.  It has exactly
two implementations, `ObjcInert` and `ObjcFunctional` (spec §4.5). -/
structure Objc where
  isVirtual : ObjcState → FuncDeclaration → Bool × ObjcState
  getParent : ObjcState → FuncDeclaration → Nat → Option Nat × ObjcState
  isThis : ObjcState → FuncDeclaration → Option Nat × ObjcState
  isRootClass : ObjcState → Nat → Bool × ObjcState
  validateSelector : ObjcState → FuncDeclaration →
    Option ObjcError × ObjcState
  addToClassMethodList : ObjcState → FuncDeclaration → Nat →
    Option ObjcError × ObjcState
  setMetaclass : ObjcState → Nat → Option ObjcError × ObjcState
  getRuntimeMetaclass : ObjcState → Nat → Option Nat × ObjcState
  createSelectorParameter : ObjcState → FuncDeclaration →
    (FuncDeclaration × Option VarDeclaration) × ObjcState
  addSymbols : ObjcState → Nat → List Nat → List Nat →
    Option ObjcError × ObjcState

/-- Modelled from the spec: the inert strategy (§4.5), whose implementation
is not in the header.  Every operation is a no-op on the state or returns
a neutral result: `isVirtual` always false, `getParent` and `isThis`
always null, list-building operations accept calls but record nothing and
emit no diagnostics. -/
def ObjcInert : Objc where
  isVirtual st _ := (false, st)
  getParent st _ _ := (none, st)
  isThis st _ := (none, st)
  isRootClass st _ := (false, st)
  validateSelector st _ := (none, st)
  addToClassMethodList st _ _ := (none, st)
  setMetaclass st _ := (none, st)
  getRuntimeMetaclass st _ := (none, st)
  createSelectorParameter st fd := ((fd, none), st)
  addSymbols st _ _ _ := (none, st)

/-- Run a state-valued operation as a (diagnostic, state) pair: a
diagnostic leaves the state as it was. -/
def runOp (st : ObjcState) : Except ObjcError ObjcState →
    Option ObjcError × ObjcState
  | .ok st' => (none, st')
  | .error e => (some e, st)

/-- Modelled from the spec: the functional strategy (§4.5), wiring the
operations above into the capability interface.  The four query
operations read the state and return it unchanged. -/
def ObjcFunctional : Objc where
  isVirtual st fd := (isVirtualF fd, st)
  getParent st fd cid := (some (getParentF st fd cid), st)
  isThis st fd := (isThisF fd, st)
  isRootClass st cid :=
    (((st.classes[cid]?).map ObjcClassDeclaration.isRootClass).getD false, st)
  validateSelector st fd :=
    (match validateSelector fd with
     | .ok _ => none
     | .error e => some e, st)
  addToClassMethodList st fd cid := runOp st (addToClassMethodList st fd cid)
  setMetaclass st cid := runOp st (setMetaclass st cid)
  getRuntimeMetaclass st cid :=
    (match getRuntimeMetaclass st cid with
     | .ok m => m
     | .error _ => none, st)
  createSelectorParameter st fd :=
    (((createSelectorParameter fd).1, some (createSelectorParameter fd).2), st)
  addSymbols st cid im cm := runOp st (addSymbols st cid im cm)

/-- An index holding an element is within bounds. -/
theorem lt_length_of_get? {α : Type} (l : List α) (i : Nat) (a : α)
    (h : l[i]? = some a) : i < l.length := by
  rcases List.getElem?_eq_some_iff.mp h with ⟨h1, _⟩
  exact h1

/-- `setClass` keeps the number of classes. -/
theorem setClass_length (st : ObjcState) (cid : Nat)
    (c : ObjcClassDeclaration) :
    (setClass st cid c).classes.length = st.classes.length := by
  simp [setClass]

/-- `setClass` stores the new info at the written id. -/
theorem setClass_get_self (st : ObjcState) (cid : Nat)
    (c : ObjcClassDeclaration) (h : cid < st.classes.length) :
    (setClass st cid c).classes[cid]? = some c := by
  simp [setClass, List.getElem?_set_self h]

/-- `setClass` leaves every other id untouched. -/
theorem setClass_get_ne (st : ObjcState) (cid i : Nat)
    (c : ObjcClassDeclaration) (h : cid ≠ i) :
    (setClass st cid c).classes[i]? = st.classes[i]? := by
  simp [setClass, List.getElem?_set_ne h]


/-- A resolved metaclass makes `getRuntimeMetaclass` answer it. -/
theorem getRuntimeMetaclass_of_metaclassOf (st : ObjcState) (cid mid : Nat)
    (h : metaclassOf st cid = some mid) :
    getRuntimeMetaclass st cid = .ok (some mid) := by
  unfold metaclassOf at h
  cases hc : st.classes[cid]? with
  | none => rw [hc] at h; simp at h
  | some c =>
    rw [hc] at h
    have h' : c.metaclass = some mid := h
    simp [getRuntimeMetaclass, hc, h']

/-- The mutual back-reference invariant of spec §3: every resolved
metaclass link points back, through the metaclass's paired-class
reference, to the class it was resolved for. -/
def MetaBackrefs (st : ObjcState) : Prop :=
  ∀ cid mid, metaclassOf st cid = some mid →
    pairedClassOf st mid = some cid

/-- Projection of a rebuilt state literal. -/
theorem classes_mk (tb : List ObjcSelector) (cs : List ObjcClassDeclaration) :
    (ObjcState.mk tb cs).classes = cs := rfl

/-- C1: whenever `setMetaclass` succeeds for a class (in a state whose
already-resolved links satisfy the back-reference invariant), the class
and its metaclass hold mutual back-references: `getRuntimeMetaclass`
answers a metaclass whose paired-class reference is the class, and the
class's own metaclass reference is that metaclass. -/
theorem setMetaclass_mutual_backref (st st' : ObjcState) (cid : Nat)
    (hwf : MetaBackrefs st) (h : setMetaclass st cid = .ok st') :
    ∃ mid, getRuntimeMetaclass st' cid = .ok (some mid) ∧
      pairedClassOf st' mid = some cid ∧
      metaclassOf st' cid = some mid := by
  unfold setMetaclass at h
  split at h
  · exact absurd h (by simp)
  next c hc =>
    have hcid : cid < st.classes.length := lt_length_of_get? _ _ _ hc
    split at h
    next m hm =>
      injection h with h2
      subst h2
      have hmo : metaclassOf st cid = some m := by
        unfold metaclassOf; rw [hc]; exact hm
      exact ⟨m, getRuntimeMetaclass_of_metaclassOf _ _ _ hmo,
        hwf cid m hmo, hmo⟩
    next hm =>
      split at h
      · split at h
        next hs => exact absurd h (by simp)
        next m hs =>
          split at h
          next hmc => exact absurd h (by simp)
          next mc hmc =>
            injection h with h2
            have hm2 : m < st.classes.length := by
              have := lt_length_of_get? _ _ _ hmc
              rwa [setClass_length] at this
            have hmo : metaclassOf st' cid = some m := by
              rw [← h2]
              unfold metaclassOf
              rcases eq_or_ne cid m with hcm | hcm
              · subst hcm
                have hmc' : mc = { c with metaclass := some cid } := by
                  have hself := setClass_get_self st cid
                    { c with metaclass := some cid } hcid
                  rw [hself] at hmc
                  exact (Option.some_injective _ hmc).symm
                rw [setClass_get_self _ _ _ (by rwa [setClass_length])]
                rw [hmc']
                rfl
              · rw [setClass_get_ne _ _ _ _ (Ne.symm hcm)]
                rw [setClass_get_self _ _ _ hcid]
                rfl
            have hpo : pairedClassOf st' m = some cid := by
              rw [← h2]
              unfold pairedClassOf
              rw [setClass_get_self _ _ _ (by rwa [setClass_length])]
              rfl
            exact ⟨m, getRuntimeMetaclass_of_metaclassOf _ _ _ hmo,
              hpo, hmo⟩
      · injection h with h2
        have hlt : cid < (st.classes.set cid
            { c with metaclass := some st.classes.length }).length := by
          simpa using hcid
        have hmo : metaclassOf st' cid = some st.classes.length := by
          rw [← h2]
          unfold metaclassOf
          rw [classes_mk]
          rw [List.getElem?_append, if_pos hlt]
          rw [List.getElem?_set_self hcid]
          rfl
        have hpo : pairedClassOf st' st.classes.length = some cid := by
          rw [← h2]
          unfold pairedClassOf
          rw [classes_mk]
          rw [List.getElem?_append_right (by simp)]
          simp
        exact ⟨st.classes.length,
          getRuntimeMetaclass_of_metaclassOf _ _ _ hmo, hpo, hmo⟩

/-- A concrete interop class with nothing resolved yet. -/
def exC1 : ObjcClassDeclaration :=
  { isMeta := false, isExtern := false, identifier := "Foo",
    classDeclaration := none, metaclass := none, methodList := [],
    superclass := none, suppliedMetaclass := none, instanceSyms := [],
    classSyms := [] }

/-- A concrete session state holding just that class. -/
def exSt1 : ObjcState := { selectorTable := [], classes := [exC1] }

/-- The back-reference invariant holds vacuously in `exSt1`. -/
theorem exSt1_wf : MetaBackrefs exSt1 := by
  intro cid mid h
  exfalso
  match cid with
  | 0 => simp [metaclassOf, exSt1, exC1] at h
  | n + 1 => simp [metaclassOf, exSt1] at h

/-- The state after synthesizing the metaclass of class 0 in `exSt1`. -/
def exSt1' : ObjcState :=
  { selectorTable := [],
    classes :=
      [{ exC1 with metaclass := some 1 },
       { isMeta := true, isExtern := false, identifier := "Foo",
         classDeclaration := some 0, metaclass := none, methodList := [],
         superclass := none, suppliedMetaclass := none, instanceSyms := [],
         classSyms := [] }] }

/-- Witness for C1 at the concrete class 0 of `exSt1`. -/
theorem setMetaclass_mutual_backref_witness :
    MetaBackrefs exSt1 ∧
    (∃ mid, getRuntimeMetaclass exSt1' 0 = .ok (some mid) ∧
      pairedClassOf exSt1' mid = some 0 ∧
      metaclassOf exSt1' 0 = some mid) :=
  ⟨exSt1_wf, setMetaclass_mutual_backref exSt1 exSt1' 0 exSt1_wf rfl⟩

/-- `ownCollision` decides exactly the presence of an entry with the same
selector and the same is-class-method flag in the class's own list. -/
theorem ownCollision_iff (c : ObjcClassDeclaration) (fd : FuncDeclaration) :
    ownCollision c fd = true ↔
      ∃ e ∈ c.methodList, fd.selector = some e.selector ∧
        fd.isStatic = e.isClassMethod := by
  simp [ownCollision]

/-- C4: `addToClassMethodList` fails with `SelectorCollision` exactly when
the class's own method list already holds an entry with the same selector
and the same is-class-method flag; when the own list has no such entry
the method is accepted (so a selector matching only a superclass's method
is an override, not an error). -/
theorem addToClassMethodList_collision_iff (st : ObjcState)
    (fd : FuncDeclaration) (cid : Nat) (c : ObjcClassDeclaration)
    (hc : st.classes[cid]? = some c) :
    (addToClassMethodList st fd cid = .error .selectorCollision ↔
      ∃ e ∈ c.methodList, fd.selector = some e.selector ∧
        fd.isStatic = e.isClassMethod) ∧
    ((¬ ∃ e ∈ c.methodList, fd.selector = some e.selector ∧
        fd.isStatic = e.isClassMethod) →
      ∃ st2, addToClassMethodList st fd cid = .ok st2) := by
  cases hsel : fd.selector with
  | none =>
    have hres : addToClassMethodList st fd cid = .ok st := by
      unfold addToClassMethodList
      rw [hc, hsel]
    rw [hres]
    constructor
    · constructor
      · intro hh; exact absurd hh (by simp)
      · rintro ⟨e, he, hse, hcl⟩
        exact absurd hse (by simp)
    · intro hn
      exact ⟨st, rfl⟩
  | some s =>
    have hiff := ownCollision_iff c fd
    rw [hsel] at hiff
    by_cases hcol : ownCollision c fd
    · have hres : addToClassMethodList st fd cid =
          .error .selectorCollision := by
        unfold addToClassMethodList
        simp only [hc, hsel]
        rw [if_pos hcol]
      constructor
      · rw [hres]
        exact ⟨fun _ => hiff.mp hcol, fun _ => rfl⟩
      · intro hn
        exact absurd (hiff.mp hcol) hn
    · have hres : addToClassMethodList st fd cid =
          .ok (setClass st cid
            { c with methodList :=
                c.methodList ++ [⟨s, fd.fid, fd.isStatic⟩] }) := by
        unfold addToClassMethodList
        simp only [hc, hsel]
        rw [if_neg hcol]
      constructor
      · rw [hres]
        constructor
        · intro hh; exact absurd hh (by simp)
        · intro hh
          exact absurd (hiff.mpr hh) hcol
      · intro hn
        exact ⟨_, hres⟩

/-- Witness class for the collision claim: its own list already holds the
selector `bar:baz:` as an instance method. -/
def exC4 : ObjcClassDeclaration :=
  { isMeta := false, isExtern := false, identifier := "Foo",
    classDeclaration := none, metaclass := none,
    methodList := [⟨⟨"bar:baz:", 2⟩, 5, false⟩],
    superclass := none, suppliedMetaclass := none, instanceSyms := [],
    classSyms := [] }

/-- Witness state holding just `exC4`. -/
def exSt4 : ObjcState := { selectorTable := [], classes := [exC4] }

/-- Witness method: same selector `bar:baz:`, same instance-method flag. -/
def exFd4 : FuncDeclaration :=
  { fid := 6, selector := some ⟨"bar:baz:", 2⟩, params := [],
    isStatic := false, isFinal := false, objcLinkage := true,
    enclosingClass := some 0, enclosingInterop := true }

/-- Witness for C4 at the concrete class 0 of `exSt4`. -/
theorem addToClassMethodList_collision_iff_witness :
    exSt4.classes[0]? = some exC4 ∧
    ((addToClassMethodList exSt4 exFd4 0 = .error .selectorCollision ↔
      ∃ e ∈ exC4.methodList, exFd4.selector = some e.selector ∧
        exFd4.isStatic = e.isClassMethod) ∧
     ((¬ ∃ e ∈ exC4.methodList, exFd4.selector = some e.selector ∧
        exFd4.isStatic = e.isClassMethod) →
      ∃ st2, addToClassMethodList exSt4 exFd4 0 = .ok st2)) :=
  ⟨rfl, addToClassMethodList_collision_iff exSt4 exFd4 0 exC4 rfl⟩

/-- A successful single `addToClassMethodList` appends exactly the
function's entry at the back of the class's method list. -/
theorem addToClassMethodList_ok_methodList (st st' : ObjcState)
    (fd : FuncDeclaration) (cid : Nat) (s : ObjcSelector)
    (hsel : fd.selector = some s)
    (h : addToClassMethodList st fd cid = .ok st') :
    methodListOf st' cid = methodListOf st cid ++ [entryOf fd] := by
  unfold addToClassMethodList at h
  split at h
  · exact absurd h (by simp)
  next c hc =>
    split at h
    next hnone =>
      rw [hsel] at hnone
      exact absurd hnone (by simp)
    next s2 hs2 =>
      split at h
      · exact absurd h (by simp)
      · injection h with h2
        subst h2
        have hcid := lt_length_of_get? _ _ _ hc
        have hss : s2 = s := by
          rw [hsel] at hs2
          exact (Option.some_injective _ hs2).symm
        unfold methodListOf
        rw [setClass_get_self _ _ _ hcid, hc]
        simp [entryOf, hsel, hss]

/-- C3: visiting a sequence of method declarations in order (each with an
assigned selector) and succeeding appends exactly those methods, as
entries, to the class's method list in the exact visiting order — no
reordering, no omission, no addition. -/
theorem addMethods_order (fs : List FuncDeclaration) (st st' : ObjcState)
    (cid : Nat)
    (hsel : ∀ f ∈ fs, (f.selector).isSome = true)
    (h : addMethods st cid fs = .ok st') :
    methodListOf st' cid = methodListOf st cid ++ fs.map entryOf := by
  induction fs generalizing st with
  | nil =>
    simp only [addMethods] at h
    injection h with h2
    subst h2
    simp
  | cons f fs ih =>
    simp only [addMethods] at h
    split at h
    next st1 hadd =>
      obtain ⟨s, hs⟩ := Option.isSome_iff_exists.mp (hsel f (by simp))
      have hone := addToClassMethodList_ok_methodList st st1 f cid s hs hadd
      have hrest := ih st1 (fun g hg => hsel g (by simp [hg])) h
      rw [hrest, hone]
      simp
    next e hadd => exact absurd h (by simp)

/-- Witness methods m1, m2, m3 with distinct selectors. -/
def fdA : FuncDeclaration :=
  { fid := 1, selector := some ⟨"a", 0⟩, params := [], isStatic := false,
    isFinal := false, objcLinkage := true, enclosingClass := some 0,
    enclosingInterop := true }

/-- Second witness method. -/
def fdB : FuncDeclaration :=
  { fid := 2, selector := some ⟨"b:", 1⟩, params := [], isStatic := false,
    isFinal := false, objcLinkage := true, enclosingClass := some 0,
    enclosingInterop := true }

/-- Third witness method. -/
def fdC : FuncDeclaration :=
  { fid := 3, selector := some ⟨"c:", 1⟩, params := [], isStatic := false,
    isFinal := false, objcLinkage := true, enclosingClass := some 0,
    enclosingInterop := true }

/-- Witness state for the ordering claim: one class, empty method list. -/
def exSt3 : ObjcState :=
  { selectorTable := [],
    classes := [{ isMeta := false, isExtern := false, identifier := "Foo",
                  classDeclaration := none, metaclass := none,
                  methodList := [], superclass := none,
                  suppliedMetaclass := none, instanceSyms := [],
                  classSyms := [] }] }

/-- The state after visiting m1, m2, m3 on class 0 of `exSt3`. -/
def exSt3' : ObjcState :=
  { selectorTable := [],
    classes := [{ isMeta := false, isExtern := false, identifier := "Foo",
                  classDeclaration := none, metaclass := none,
                  methodList := [⟨⟨"a", 0⟩, 1, false⟩, ⟨⟨"b:", 1⟩, 2, false⟩,
                                 ⟨⟨"c:", 1⟩, 3, false⟩],
                  superclass := none, suppliedMetaclass := none,
                  instanceSyms := [], classSyms := [] }] }

/-- Witness for C3: visiting [m1, m2, m3] yields exactly [m1, m2, m3]. -/
theorem addMethods_order_witness :
    (∀ f ∈ [fdA, fdB, fdC], (f.selector).isSome = true) ∧
    methodListOf exSt3' 0 = methodListOf exSt3 0 ++
      [fdA, fdB, fdC].map entryOf :=
  ⟨by decide, addMethods_order [fdA, fdB, fdC] exSt3 exSt3' 0
    (by decide) rfl⟩

/-- C6: `validateSelector` reports `SelectorArityMismatch` whenever the
parameter count encoded in the function's assigned selector differs from
its non-implicit parameter count. -/
theorem validateSelector_arity_mismatch (fd : FuncDeclaration)
    (s : ObjcSelector) (h1 : fd.selector = some s)
    (h2 : s.paramCount ≠ nonImplicitParamCount fd) :
    validateSelector fd = .error .selectorArityMismatch := by
  unfold validateSelector
  simp only [h1]
  rw [if_pos h2]

/-- Witness function for C6: one non-implicit parameter, but an explicit
zero-parameter selector `onlyOne`. -/
def exFd6 : FuncDeclaration :=
  { fid := 7, selector := some ⟨"onlyOne", 0⟩, params := [⟨"x", false⟩],
    isStatic := false, isFinal := false, objcLinkage := true,
    enclosingClass := some 0, enclosingInterop := true }

/-- Witness for C6 at the concrete function `exFd6`. -/
theorem validateSelector_arity_mismatch_witness :
    exFd6.selector = some ⟨"onlyOne", 0⟩ ∧
    (⟨"onlyOne", 0⟩ : ObjcSelector).paramCount ≠
      nonImplicitParamCount exFd6 ∧
    validateSelector exFd6 = .error .selectorArityMismatch :=
  ⟨rfl, by decide,
   validateSelector_arity_mismatch exFd6 ⟨"onlyOne", 0⟩ rfl (by decide)⟩

/-- C7: `createSelectorParameter` is idempotent.  On a function whose
parameter list holds at most one selector parameter (the invariant the
synthesizer itself maintains), a second call returns the same parameter,
changes nothing, and the final parameter list holds exactly one selector
parameter. -/
theorem createSelectorParameter_idempotent (fd : FuncDeclaration)
    (hcount : fd.params.countP (fun p => p.isSelector) ≤ 1) :
    (createSelectorParameter (createSelectorParameter fd).1).1 =
      (createSelectorParameter fd).1 ∧
    (createSelectorParameter (createSelectorParameter fd).1).2 =
      (createSelectorParameter fd).2 ∧
    ((createSelectorParameter fd).1).params.countP
      (fun p => p.isSelector) = 1 := by
  cases hf : fd.params.find? (fun p => p.isSelector) with
  | some p =>
    have hone : createSelectorParameter fd = (fd, p) := by
      unfold createSelectorParameter
      rw [hf]
    have hpos : 0 < fd.params.countP (fun p => p.isSelector) :=
      List.countP_pos_iff.mpr
        ⟨p, List.mem_of_find?_eq_some hf, List.find?_some hf⟩
    rw [hone]
    exact ⟨by rw [hone], by rw [hone], Nat.le_antisymm hcount hpos⟩
  | none =>
    have hzero : fd.params.countP (fun p => p.isSelector) = 0 :=
      List.countP_eq_zero.mpr (List.find?_eq_none.mp hf)
    have hone : createSelectorParameter fd =
        ({ fd with params := ⟨"_cmd", true⟩ :: fd.params },
         ⟨"_cmd", true⟩) := by
      unfold createSelectorParameter
      rw [hf]
    have htwo : createSelectorParameter
        ({ fd with params := ⟨"_cmd", true⟩ :: fd.params }) =
        ({ fd with params := ⟨"_cmd", true⟩ :: fd.params },
         ⟨"_cmd", true⟩) := by
      unfold createSelectorParameter
      rw [List.find?_cons_of_pos _ (by simp)]
    rw [hone]
    refine ⟨by rw [htwo], by rw [htwo], ?_⟩
    rw [List.countP_cons_of_pos _ _ (by simp), hzero]

/-- Witness function for C7: one user parameter, no selector parameter. -/
def exFd7 : FuncDeclaration :=
  { fid := 8, selector := none, params := [⟨"x", false⟩],
    isStatic := false, isFinal := false, objcLinkage := true,
    enclosingClass := some 0, enclosingInterop := true }

/-- Witness for C7 at the concrete function `exFd7`. -/
theorem createSelectorParameter_idempotent_witness :
    exFd7.params.countP (fun p => p.isSelector) ≤ 1 ∧
    ((createSelectorParameter (createSelectorParameter exFd7).1).1 =
      (createSelectorParameter exFd7).1 ∧
     (createSelectorParameter (createSelectorParameter exFd7).1).2 =
      (createSelectorParameter exFd7).2 ∧
     ((createSelectorParameter exFd7).1).params.countP
      (fun p => p.isSelector) = 1) :=
  ⟨by decide, createSelectorParameter_idempotent exFd7 (by decide)⟩

/-- C5: under the inert strategy every operation is a no-op or returns a
neutral result: `isVirtual` is false for every function, `getParent` and
`isThis` are null for every input, list-building operations leave the
state (hence every method list) unchanged, and no operation emits a
diagnostic. -/
theorem objc_inert_noop (st : ObjcState) (fd : FuncDeclaration)
    (cid : Nat) (im cm : List Nat) :
    ObjcInert.isVirtual st fd = (false, st) ∧
    ObjcInert.getParent st fd cid = (none, st) ∧
    ObjcInert.isThis st fd = (none, st) ∧
    ObjcInert.isRootClass st cid = (false, st) ∧
    ObjcInert.validateSelector st fd = (none, st) ∧
    ObjcInert.addToClassMethodList st fd cid = (none, st) ∧
    ObjcInert.setMetaclass st cid = (none, st) ∧
    ObjcInert.getRuntimeMetaclass st cid = (none, st) ∧
    ObjcInert.createSelectorParameter st fd = ((fd, none), st) ∧
    ObjcInert.addSymbols st cid im cm = (none, st) ∧
    methodListOf (ObjcInert.addToClassMethodList st fd cid).2 cid =
      methodListOf st cid ∧
    instanceSymsOf (ObjcInert.addSymbols st cid im cm).2 cid =
      instanceSymsOf st cid ∧
    classSymsOf (ObjcInert.addSymbols st cid im cm).2 cid =
      classSymsOf st cid :=
  ⟨rfl, rfl, rfl, rfl, rfl, rfl, rfl, rfl, rfl, rfl, rfl, rfl, rfl⟩

/-- The fuelled walk is the first match over the ancestor chain. -/
theorem findParent_eq_find (st : ObjcState) (fd : FuncDeclaration)
    (fuel cid : Nat) :
    findParent st fd fuel cid =
      (ancestorChain st fuel cid).find? (declaresAt st fd) := by
  induction fuel generalizing cid with
  | zero => simp [findParent, ancestorChain]
  | succ n ih =>
    unfold findParent ancestorChain
    cases hc : st.classes[cid]? with
    | none => simp
    | some c =>
      by_cases hd : declaresSelectorOf c fd
      · simp only
        rw [List.find?_cons_of_pos _ (by simp [declaresAt, hc, hd])]
        simp [hd]
      · cases hs : c.superclass with
        | none =>
          simp only [hs]
          rw [List.find?_cons_of_neg _ (by simp [declaresAt, hc, hd])]
          simp [hd]
        | some sup =>
          simp only [hs]
          rw [List.find?_cons_of_neg _ (by simp [declaresAt, hc, hd])]
          simp [hd, ih]

/-- C8: `getParent` answers the nearest ancestor of the class (itself
included, walking the interop inheritance chain upward) that already
declares a method with the same selector as the function — the first
match on the ancestor chain — and the class itself when no ancestor
matches. -/
theorem getParent_nearest (st : ObjcState) (fd : FuncDeclaration)
    (cid : Nat) :
    getParentF st fd cid =
      ((ancestorChain st st.classes.length cid).find?
        (declaresAt st fd)).getD cid := by
  unfold getParentF
  rw [findParent_eq_find]

/-- C9: `addSymbols` is order-preserving and cumulative: two successive
calls for the same aggregate append both instance-method and class-method
sequences, in order, after what was already accumulated — never replacing
it. -/
theorem addSymbols_cumulative (st : ObjcState) (cid : Nat)
    (i1 c1 i2 c2 : List Nat) (c : ObjcClassDeclaration)
    (hc : st.classes[cid]? = some c) :
    ∃ st1 st2, addSymbols st cid i1 c1 = .ok st1 ∧
      addSymbols st1 cid i2 c2 = .ok st2 ∧
      instanceSymsOf st2 cid = instanceSymsOf st cid ++ (i1 ++ i2) ∧
      classSymsOf st2 cid = classSymsOf st cid ++ (c1 ++ c2) := by
  have hcid := lt_length_of_get? _ _ _ hc
  have h1 : addSymbols st cid i1 c1 = .ok (setClass st cid
      { c with instanceSyms := c.instanceSyms ++ i1,
               classSyms := c.classSyms ++ c1 }) := by
    unfold addSymbols
    rw [hc]
  have hget : (setClass st cid
      { c with instanceSyms := c.instanceSyms ++ i1,
               classSyms := c.classSyms ++ c1 }).classes[cid]? =
      some { c with instanceSyms := c.instanceSyms ++ i1,
                    classSyms := c.classSyms ++ c1 } :=
    setClass_get_self _ _ _ hcid
  have h2 : addSymbols (setClass st cid
      { c with instanceSyms := c.instanceSyms ++ i1,
               classSyms := c.classSyms ++ c1 }) cid i2 c2 = .ok
      (setClass (setClass st cid
        { c with instanceSyms := c.instanceSyms ++ i1,
                 classSyms := c.classSyms ++ c1 }) cid
        { c with instanceSyms := c.instanceSyms ++ i1 ++ i2,
                 classSyms := c.classSyms ++ c1 ++ c2 }) := by
    unfold addSymbols
    rw [hget]
  refine ⟨_, _, h1, h2, ?_, ?_⟩
  · unfold instanceSymsOf
    rw [setClass_get_self _ _ _ (by simpa [setClass_length] using hcid), hc]
    simp
  · unfold classSymsOf
    rw [setClass_get_self _ _ _ (by simpa [setClass_length] using hcid), hc]
    simp

/-- Witness class for C9 with some symbols accumulated. -/
def exC9 : ObjcClassDeclaration :=
  { isMeta := false, isExtern := false, identifier := "Foo",
    classDeclaration := none, metaclass := none, methodList := [],
    superclass := none, suppliedMetaclass := none, instanceSyms := [10],
    classSyms := [20] }

/-- Witness state for C9: just that class. -/
def exSt9 : ObjcState := { selectorTable := [], classes := [exC9] }

/-- Witness for C9 at the concrete class 0 of `exSt9`. -/
theorem addSymbols_cumulative_witness :
    exSt9.classes[0]? = some exC9 ∧
    (∃ st1 st2, addSymbols exSt9 0 [1] [2] = .ok st1 ∧
      addSymbols st1 0 [3] [4] = .ok st2 ∧
      instanceSymsOf st2 0 = instanceSymsOf exSt9 0 ++ ([1] ++ [3]) ∧
      classSymsOf st2 0 = classSymsOf exSt9 0 ++ ([2] ++ [4])) :=
  ⟨rfl, addSymbols_cumulative exSt9 0 [1] [2] [3] [4] _ rfl⟩

/-- C10: the query operations `isVirtual`, `getParent` and `isRootClass`
are read-only observers in both strategies: they return the session state
exactly as given, so every declaration, the selector table and every
class's method list are left unchanged. -/
theorem objc_observers_readonly (st : ObjcState) (fd : FuncDeclaration)
    (cid : Nat) :
    (ObjcFunctional.isVirtual st fd).2 = st ∧
    (ObjcFunctional.getParent st fd cid).2 = st ∧
    (ObjcFunctional.isRootClass st cid).2 = st ∧
    (ObjcInert.isVirtual st fd).2 = st ∧
    (ObjcInert.getParent st fd cid).2 = st ∧
    (ObjcInert.isRootClass st cid).2 = st ∧
    (ObjcFunctional.getParent st fd cid).2.selectorTable =
      st.selectorTable ∧
    methodListOf (ObjcFunctional.getParent st fd cid).2 cid =
      methodListOf st cid :=
  ⟨rfl, rfl, rfl, rfl, rfl, rfl, rfl, rfl⟩
